import Mathlib

set_option maxRecDepth 100000
set_option maxHeartbeats 4000000

/-!
A verification development for the server-side voxel streaming core
(chunked LOD voxel world engine).  The Rust sources are shallowly embedded:

* machine integers (`i32`, `u16`, `u32`) become `Int`/`Nat`, with explicit
  `% 2 ^ w` wherever the source relies on wrapping;
* the concurrent `Level` map becomes an explicit lookup function, and the
  per-chunk atomic stage machine becomes a pure transition function — the
  claims below concern single-job, sequential executions, for which the
  CAS loops are equivalent to their pure transition functions;
* the floating-point frustum plane test and the distance-derived LOD are
  abstracted as function parameters where only their boolean outcome
  matters, and embedded over `ℚ` where the exact ladder of comparisons in
  `lod_level_at` is itself the object of the claim.
-/

/-- 3-component integer vector, mirroring `glam::IVec3`.  Chunk positions in
every statement below stay far inside the `i32` range, so components are
unbounded integers. -/
structure IVec3 where
  x : Int
  y : Int
  z : Int
  deriving DecidableEq, Repr

/-- Arithmetic right shift of an `i32` (Rust `>>`): floor division by `2 ^ n`. -/
def sar (a : Int) (n : Nat) : Int :=
  Int.fdiv a (2 ^ n)

/-- Component-wise arithmetic right shift, mirroring `IVec3 >> n`. -/
def IVec3.shr (v : IVec3) (n : Nat) : IVec3 :=
  ⟨sar v.x n, sar v.y n, sar v.z n⟩

/-- Component-wise addition, mirroring `IVec3 + IVec3`. -/
def IVec3.add (a b : IVec3) : IVec3 :=
  ⟨a.x + b.x, a.y + b.y, a.z + b.z⟩

/-- `ChunkID` from `chunk.rs`: an LOD level (`u16` in the source; the walks
below never leave `0..=8`) and an integer chunk position. -/
structure ChunkID where
  lod : Nat
  pos : IVec3
  deriving DecidableEq, Repr

/-- `frustum.rs`: `pub const MAX_LOD: LodLevel = 8`. -/
def MAX_LOD : Nat := 8

/-- `ChunkID::parent`: `(lod + 1, pos >> 1)`. -/
def ChunkID.parent (c : ChunkID) : ChunkID :=
  ⟨c.lod + 1, c.pos.shr 1⟩

/-- `chunk_overlaps` from `frustum.rs`. -/
def chunk_overlaps (a b : ChunkID) : Bool :=
  if a.lod = b.lod then
    decide (a.pos = b.pos)
  else if b.lod < a.lod then
    decide (b.pos.shr (a.lod - b.lod) = a.pos)
  else
    decide (a.pos.shr (b.lod - a.lod) = b.pos)

/-! ### Per-chunk stage state machine (`chunk.rs`)

`AtomicDataState` is an atomic byte driven by CAS loops.  Executed by a
single thread (all claims below concern a single job on a fresh id), each
CAS loop is equivalent to the pure transition function on the four states. -/

/-- The four stage states of `DataState` in `chunk.rs`. -/
inductive DataState where
  | Done
  | Dirty
  | Generating
  | GeneratingDirty
  deriving DecidableEq, Repr

/-- `AtomicDataState::finish_generating`: `Generating → Done`,
`GeneratingDirty → Dirty`, anything else unchanged. -/
def finish_generating : DataState → DataState
  | .Generating => .Done
  | .GeneratingDirty => .Dirty
  | s => s

/-- `AtomicDataState::mark_dirty`: `Done → Dirty`,
`Generating → GeneratingDirty`, anything else unchanged. -/
def mark_dirty : DataState → DataState
  | .Done => .Dirty
  | .Generating => .GeneratingDirty
  | s => s

/-- `AtomicDataState::try_start_generating`: succeeds exactly from `Dirty`
(moving to `Generating`); every other state reports busy (`none`). -/
def try_start_generating : DataState → Option DataState
  | .Dirty => some .Generating
  | _ => none

/-- The three stage states of one `Chunk` (`voxel_state`, `occl_state`,
`mesh_state`). -/
structure ChunkStages where
  voxel : DataState
  occl : DataState
  mesh : DataState
  deriving DecidableEq, Repr

/-- `Chunk::new(voxel_state)`: occl and mesh stages start `Done`. -/
def chunk_new (s : DataState) : ChunkStages :=
  ⟨s, .Done, .Done⟩

/-- State effect of `Chunk::write_voxel` exactly as in the source: it calls
`self.occl_state.finish_generating()` (not `voxel_state`!), then
`self.occl_state.mark_dirty()` and `self.mesh_state.mark_dirty()`. -/
def write_voxel_states (c : ChunkStages) : ChunkStages :=
  let c := { c with occl := finish_generating c.occl }
  let c := { c with occl := mark_dirty c.occl }
  { c with mesh := mark_dirty c.mesh }

/-- State effect of `Chunk::write_occl`: `occl_state.finish_generating()`
then `mesh_state.mark_dirty()`. -/
def write_occl_states (c : ChunkStages) : ChunkStages :=
  let c := { c with occl := finish_generating c.occl }
  { c with mesh := mark_dirty c.mesh }

/-- State effect of `Chunk::write_mesh`: `mesh_state.finish_generating()`. -/
def write_mesh_states (c : ChunkStages) : ChunkStages :=
  { c with mesh := finish_generating c.mesh }

/-- Stage-state trace of `Job::generate_chunk_and_mesh` (`job.rs`) run to
completion on a level that did not previously contain the id: the insert
succeeds with `Chunk::new(DataState::Generating)`, then `write_voxel`,
`occl_state.try_start_generating`, `write_occl`,
`mesh_state.try_start_generating`, `write_mesh`.  `none` models the
early-exit (`return Some(())` after a refused start). -/
def generate_chunk_and_mesh_states : Option ChunkStages :=
  let c := chunk_new .Generating
  let c := write_voxel_states c
  (try_start_generating c.occl).bind fun o =>
    let c := { c with occl := o }
    let c := write_occl_states c
    (try_start_generating c.mesh).map fun m =>
      write_mesh_states { c with mesh := m }

/-! ### Voxel types and mesh instances (`voxel.rs`, `mesh.rs`) -/

/-- `VoxelType` from `voxel.rs`, in source declaration order. -/
inductive VoxelType where
  | Air
  | CrackedStone
  | Stone
  | Dirt
  deriving DecidableEq, Repr

/-- The enum discriminant (`self as u8` / `self as u16`). -/
def VoxelType.discr : VoxelType → Nat
  | .Air => 0
  | .CrackedStone => 1
  | .Stone => 2
  | .Dirt => 3

/-- `VoxelType::is_physically_solid`: `self != VoxelType::Air`. -/
def is_physically_solid (v : VoxelType) : Bool :=
  decide (v ≠ VoxelType.Air)

/-- `VoxelType::texture_id`: `self as u16 - 1`, a wrapping `u16`
subtraction; the `orientation` argument is unused in the source. -/
def texture_id (v : VoxelType) (orientation : Nat) : Nat :=
  (v.discr + 2 ^ 16 - 1) % 2 ^ 16

/-- The `kind` field built by every `Mesh::add_*`:
`((lod as u32) << 16) | texture as u32` on `u32`. -/
def mk_kind (lod texture : Nat) : Nat :=
  ((lod <<< 16) ||| texture) % 2 ^ 32

/-- `Instance` from `mesh.rs` (the `pos`/`kind` payload). -/
structure Instance where
  pos : IVec3
  kind : Nat
  deriving DecidableEq, Repr

/-- `Mesh` from `mesh.rs`: six per-direction instance buffers. -/
structure Mesh where
  nx : List Instance
  px : List Instance
  ny : List Instance
  py : List Instance
  nz : List Instance
  pz : List Instance
  deriving DecidableEq, Repr

/-- `Mesh::new` (also `with_capacity`: capacity is irrelevant here). -/
def Mesh.empty : Mesh :=
  ⟨[], [], [], [], [], []⟩

def Mesh.add_nx (m : Mesh) (pos : IVec3) (texture lod : Nat) : Mesh :=
  { m with nx := m.nx ++ [⟨pos, mk_kind lod texture⟩] }

def Mesh.add_px (m : Mesh) (pos : IVec3) (texture lod : Nat) : Mesh :=
  { m with px := m.px ++ [⟨pos, mk_kind lod texture⟩] }

def Mesh.add_ny (m : Mesh) (pos : IVec3) (texture lod : Nat) : Mesh :=
  { m with ny := m.ny ++ [⟨pos, mk_kind lod texture⟩] }

def Mesh.add_py (m : Mesh) (pos : IVec3) (texture lod : Nat) : Mesh :=
  { m with py := m.py ++ [⟨pos, mk_kind lod texture⟩] }

def Mesh.add_nz (m : Mesh) (pos : IVec3) (texture lod : Nat) : Mesh :=
  { m with nz := m.nz ++ [⟨pos, mk_kind lod texture⟩] }

def Mesh.add_pz (m : Mesh) (pos : IVec3) (texture lod : Nat) : Mesh :=
  { m with pz := m.pz ++ [⟨pos, mk_kind lod texture⟩] }

/-- The lower 16 bits of `mk_kind lod texture` recover the texture id. -/
theorem mk_kind_mod_two_pow_16 (lod t : Nat) (ht : t < 2 ^ 16) :
    mk_kind lod t % 2 ^ 16 = t := by
  apply Nat.eq_of_testBit_eq
  intro i
  unfold mk_kind
  rw [Nat.mod_mod_of_dvd _ (by norm_num : (2 : Nat) ^ 16 ∣ 2 ^ 32),
    Nat.testBit_mod_two_pow, Nat.testBit_or, Nat.testBit_shiftLeft]
  rcases lt_or_ge i 16 with hi | hi
  · have hns : ¬ (16 ≤ i) := by omega
    simp [hi, hns]
  · have h2 : t.testBit i = false := by
      apply Nat.testBit_lt_two_pow
      calc t < 2 ^ 16 := ht
        _ ≤ 2 ^ i := Nat.pow_le_pow_right (by norm_num) hi
    have hns : ¬ (i < 16) := by omega
    simp [hns, h2]

/-- Claim C1: a single `GenerateChunkAndMesh` job for an id absent from the
level runs all its steps (insert, voxel write, occlusion build, mesh
build), yet the resulting chunk has `voxel_state = Generating` — not
`Done` as the claim states — because `Chunk::write_voxel` calls
`finish_generating` on `occl_state` instead of on its own `voxel_state`.
`mesh_state` (and `occl_state`) do end `Done`. -/
theorem c1_generate_chunk_and_mesh_final_states :
    generate_chunk_and_mesh_states =
      some ⟨DataState.Generating, DataState.Done, DataState.Done⟩ := by
  decide

/-- Claim C10: `texture_id` ignores its face-direction argument: for every
non-Air voxel type `v` and any two orientations, the results agree and
equal `discr v - 1`; and the `kind` word built from it by the mesh adders
carries exactly that texture id in its lower 16 bits. -/
theorem c10_texture_id_ignores_orientation (v : VoxelType)
    (hv : v ≠ VoxelType.Air) (o1 o2 lod : Nat) :
    texture_id v o1 = texture_id v o2 ∧
    texture_id v o1 = v.discr - 1 ∧
    mk_kind lod (texture_id v o1) % 2 ^ 16 = texture_id v o1 := by
  refine ⟨rfl, ?_, mk_kind_mod_two_pow_16 _ _ ?_⟩
  · cases v
    · exact absurd rfl hv
    · rfl
    · rfl
    · rfl
  · unfold texture_id
    exact Nat.mod_lt _ (by norm_num)

/-- Witness for C10 at `v = Stone`, orientations `0` and `5`, lod `3`. -/
theorem c10_texture_id_ignores_orientation_witness :
    VoxelType.Stone ≠ VoxelType.Air ∧
    (texture_id VoxelType.Stone 0 = texture_id VoxelType.Stone 5 ∧
      texture_id VoxelType.Stone 0 = VoxelType.Stone.discr - 1 ∧
      mk_kind 3 (texture_id VoxelType.Stone 0) % 2 ^ 16 =
        texture_id VoxelType.Stone 0) :=
  ⟨by decide, c10_texture_id_ignores_orientation VoxelType.Stone (by decide) 0 5 3⟩

/-! ### Render-set resolver (`server.rs::select_render_chunks`)

The level only enters through `mesh_ready`; it is abstracted as a boolean
assignment `ready : ChunkID → Bool` (any level state realises some such
assignment and vice versa). -/

/-- The `while next.lod < MAX_LOD` parent walk of `select_render_chunks`.
Each iteration raises the lod by one, so fuel `MAX_LOD` never cuts the
walk short. -/
def walk_up (ready : ChunkID → Bool) : Nat → ChunkID → Option ChunkID
  | 0, _ => none
  | fuel + 1, next =>
    if next.lod < MAX_LOD then
      let p := next.parent
      if ready p then some p else walk_up ready fuel p
    else none

/-- Candidate resolution for one desired id: itself when mesh-ready, else
the first mesh-ready ancestor below `MAX_LOD`; `none` drops the id (the
source's re-check `!found && !self.mesh_ready(candidate)` is `true` here
since the sequential model has no interleaved writers). -/
def resolve_candidate (ready : ChunkID → Bool) (desired : ChunkID) : Option ChunkID :=
  if ready desired then some desired
  else walk_up ready MAX_LOD desired

/-- The selection loop of `select_render_chunks`: `retain` drops
already-selected entries that overlap the candidate with strictly lower
lod, then the candidate is skipped if a remaining entry overlaps it with
lod at most the candidate's, else appended. -/
def select_go (ready : ChunkID → Bool) : List ChunkID → List ChunkID → List ChunkID
  | sel, [] => sel
  | sel, desired :: rest =>
    match resolve_candidate ready desired with
    | none => select_go ready sel rest
    | some cand =>
      let sel1 := sel.filter fun e => !(chunk_overlaps e cand && decide (e.lod < cand.lod))
      if sel1.any fun e => chunk_overlaps e cand && decide (e.lod ≤ cand.lod) then
        select_go ready sel1 rest
      else
        select_go ready (sel1 ++ [cand]) rest

/-- `Server::select_render_chunks`. -/
def select_render_chunks (ready : ChunkID → Bool) (chunks : List ChunkID) : List ChunkID :=
  select_go ready [] chunks

/-- The ordered non-overlap relation the resolver actually maintains:
whenever an earlier selected chunk overlaps a later one, the later one is
strictly finer. -/
def sel_inv (a b : ChunkID) : Prop :=
  chunk_overlaps a b = true → b.lod < a.lod

theorem select_go_pairwise (ready : ChunkID → Bool) (l : List ChunkID) :
    ∀ sel : List ChunkID, sel.Pairwise sel_inv → (select_go ready sel l).Pairwise sel_inv := by
  induction l with
  | nil => intro sel h; exact h
  | cons desired rest ih =>
    intro sel h
    rw [select_go]
    cases resolve_candidate ready desired with
    | none => exact ih sel h
    | some cand =>
      simp only
      have h1 : (sel.filter fun e =>
          !(chunk_overlaps e cand && decide (e.lod < cand.lod))).Pairwise sel_inv :=
        h.sublist (List.filter_sublist sel)
      split
      · exact ih _ h1
      · rename_i hany
        apply ih
        rw [List.pairwise_append]
        refine ⟨h1, List.pairwise_singleton _ _, ?_⟩
        intro a ha b hb
        have hb' : b = cand := by simpa using hb
        rw [hb']
        intro hov
        by_contra hlt
        have hale : a.lod ≤ cand.lod := Nat.le_of_not_lt hlt
        exact hany (List.any_eq_true.mpr ⟨a, ha, by simp [hov, hale]⟩)

/-- Claim C2 (amended): for every mesh-ready assignment and every desired
list, the render set returned by `select_render_chunks` satisfies: for any
two entries with the earlier one overlapping the later one, the later one
has strictly lower lod.  In particular no two equal-lod entries overlap.
(Pairwise *non*-overlap fails: see the counterexample.) -/
theorem c2_select_render_chunks_ordered_overlap (ready : ChunkID → Bool)
    (chunks : List ChunkID) :
    (select_render_chunks ready chunks).Pairwise sel_inv :=
  select_go_pairwise ready chunks [] List.Pairwise.nil

/-- Counterexample to claim C2 as stated: with every chunk mesh-ready and
desired list `[(lod 1, 0), (lod 0, 0)]`, the resolver returns both ids,
which overlap (`chunk_overlaps` is true) while being distinct. -/
theorem c2_counterexample :
    select_render_chunks (fun _ => true)
        [⟨1, ⟨0, 0, 0⟩⟩, ⟨0, ⟨0, 0, 0⟩⟩] =
      [⟨1, ⟨0, 0, 0⟩⟩, ⟨0, ⟨0, 0, 0⟩⟩] ∧
    chunk_overlaps ⟨1, ⟨0, 0, 0⟩⟩ ⟨0, ⟨0, 0, 0⟩⟩ = true ∧
    (⟨1, ⟨0, 0, 0⟩⟩ : ChunkID) ≠ ⟨0, ⟨0, 0, 0⟩⟩ := by
  refine ⟨by decide, by decide, by decide⟩

/-! ### Distance-derived LOD (`frustum.rs::lod_level_at`)

The source computes `dst = cam_chunk_pos.distance(chunk_coord)` and feeds
it to a ladder of comparisons against `full_detail_range * 2^k`.  The
ladder itself is the object of claim C6; it is embedded exactly, over `ℚ`,
as a function of `full_detail_range` and the computed distance. -/

/-- The comparison ladder of `lod_level_at`. -/
def lod_level_at (full_detail_range dst : ℚ) : Nat :=
  if dst ≤ full_detail_range then 0
  else if dst ≤ full_detail_range * 2 then 1
  else if dst ≤ full_detail_range * 4 then 2
  else if dst ≤ full_detail_range * 8 then 3
  else if dst ≤ full_detail_range * 16 then 4
  else if dst ≤ full_detail_range * 32 then 5
  else if dst ≤ full_detail_range * 64 then 6
  else if dst ≤ full_detail_range * 128 then 7
  else MAX_LOD

theorem clog_toNat_ceil_le (n : Nat) (r : ℚ) (h : r ≤ 2 ^ n) :
    Nat.clog 2 (Int.toNat ⌈r⌉) ≤ n := by
  rw [← Nat.le_pow_iff_clog_le (by norm_num)]
  rw [Int.toNat_le, Int.ceil_le]
  push_cast
  exact h

theorem lt_clog_toNat_ceil (n : Nat) (r : ℚ) (h : (2 : ℚ) ^ n < r) :
    n < Nat.clog 2 (Int.toNat ⌈r⌉) := by
  rw [← Nat.pow_lt_iff_lt_clog (by norm_num)]
  rw [Int.lt_toNat, Int.lt_ceil]
  push_cast
  exact h

/-- Claim C6 (amended): for positive `full_detail_range` and nonnegative
distance, `lod_level_at` computes `ceil(log2(ceil(dst / full_detail_range)))`
clamped to `MAX_LOD = 8` — not to the 16-bit maximum as claimed (see the
counterexample). -/
theorem c6_lod_level_at_eq_clog (fdr dst : ℚ) (hf : 0 < fdr) (hd : 0 ≤ dst) :
    lod_level_at fdr dst = min (Nat.clog 2 (Int.toNat ⌈dst / fdr⌉)) MAX_LOD := by
  unfold lod_level_at
  split_ifs with h0 h1 h2 h3 h4 h5 h6 h7
  · have hub := clog_toNat_ceil_le 0 (dst / fdr)
      (by rw [div_le_iff₀ hf]; norm_num; linarith)
    have hc : Nat.clog 2 (Int.toNat ⌈dst / fdr⌉) = 0 := by omega
    rw [hc]; unfold MAX_LOD; omega
  · have hub := clog_toNat_ceil_le 1 (dst / fdr)
      (by rw [div_le_iff₀ hf]; norm_num; linarith)
    have hlb := lt_clog_toNat_ceil 0 (dst / fdr)
      (by rw [lt_div_iff₀ hf]; norm_num; linarith)
    have hc : Nat.clog 2 (Int.toNat ⌈dst / fdr⌉) = 1 := by omega
    rw [hc]; unfold MAX_LOD; omega
  · have hub := clog_toNat_ceil_le 2 (dst / fdr)
      (by rw [div_le_iff₀ hf]; norm_num; linarith)
    have hlb := lt_clog_toNat_ceil 1 (dst / fdr)
      (by rw [lt_div_iff₀ hf]; norm_num; linarith)
    have hc : Nat.clog 2 (Int.toNat ⌈dst / fdr⌉) = 2 := by omega
    rw [hc]; unfold MAX_LOD; omega
  · have hub := clog_toNat_ceil_le 3 (dst / fdr)
      (by rw [div_le_iff₀ hf]; norm_num; linarith)
    have hlb := lt_clog_toNat_ceil 2 (dst / fdr)
      (by rw [lt_div_iff₀ hf]; norm_num; linarith)
    have hc : Nat.clog 2 (Int.toNat ⌈dst / fdr⌉) = 3 := by omega
    rw [hc]; unfold MAX_LOD; omega
  · have hub := clog_toNat_ceil_le 4 (dst / fdr)
      (by rw [div_le_iff₀ hf]; norm_num; linarith)
    have hlb := lt_clog_toNat_ceil 3 (dst / fdr)
      (by rw [lt_div_iff₀ hf]; norm_num; linarith)
    have hc : Nat.clog 2 (Int.toNat ⌈dst / fdr⌉) = 4 := by omega
    rw [hc]; unfold MAX_LOD; omega
  · have hub := clog_toNat_ceil_le 5 (dst / fdr)
      (by rw [div_le_iff₀ hf]; norm_num; linarith)
    have hlb := lt_clog_toNat_ceil 4 (dst / fdr)
      (by rw [lt_div_iff₀ hf]; norm_num; linarith)
    have hc : Nat.clog 2 (Int.toNat ⌈dst / fdr⌉) = 5 := by omega
    rw [hc]; unfold MAX_LOD; omega
  · have hub := clog_toNat_ceil_le 6 (dst / fdr)
      (by rw [div_le_iff₀ hf]; norm_num; linarith)
    have hlb := lt_clog_toNat_ceil 5 (dst / fdr)
      (by rw [lt_div_iff₀ hf]; norm_num; linarith)
    have hc : Nat.clog 2 (Int.toNat ⌈dst / fdr⌉) = 6 := by omega
    rw [hc]; unfold MAX_LOD; omega
  · have hub := clog_toNat_ceil_le 7 (dst / fdr)
      (by rw [div_le_iff₀ hf]; norm_num; linarith)
    have hlb := lt_clog_toNat_ceil 6 (dst / fdr)
      (by rw [lt_div_iff₀ hf]; norm_num; linarith)
    have hc : Nat.clog 2 (Int.toNat ⌈dst / fdr⌉) = 7 := by omega
    rw [hc]; unfold MAX_LOD; omega
  · have hlb := lt_clog_toNat_ceil 7 (dst / fdr)
      (by rw [lt_div_iff₀ hf]; norm_num; linarith)
    have h8 : MAX_LOD ≤ Nat.clog 2 (Int.toNat ⌈dst / fdr⌉) := by
      unfold MAX_LOD; omega
    exact (Nat.min_eq_right h8).symm

/-- Witness for C6 at `full_detail_range = 1`, `dst = 3`. -/
theorem c6_lod_level_at_eq_clog_witness :
    (0 : ℚ) < 1 ∧ (0 : ℚ) ≤ 3 ∧
    lod_level_at 1 3 = min (Nat.clog 2 (Int.toNat ⌈(3 : ℚ) / 1⌉)) MAX_LOD :=
  ⟨by norm_num, by norm_num, c6_lod_level_at_eq_clog 1 3 (by norm_num) (by norm_num)⟩

/-- Counterexample to claim C6 as stated: at `full_detail_range = 1` and
distance `512` (realised e.g. by camera chunk `(0,0,0)` and chunk
coordinate `(512,0,0)`), the source ladder returns `MAX_LOD = 8`, while
`ceil(log2(ceil(dist/full_detail_range)))` clamped to the 16-bit maximum
is `9`. -/
theorem c6_counterexample :
    lod_level_at 1 512 = 8 ∧
    min (Nat.clog 2 (Int.toNat ⌈(512 : ℚ) / 1⌉)) 65535 = 9 := by
  constructor
  · unfold lod_level_at
    norm_num [MAX_LOD]
  · have h : Int.toNat ⌈(512 : ℚ) / 1⌉ = 2 ^ 9 := by norm_num; rfl
    rw [h, Nat.clog_pow _ _ (by norm_num)]
    omega

/-! ### Physics query `Server::solid_at` (`server.rs`)

`i32` two's-complement bit operations are embedded exactly via the
32-bit pattern of an integer. -/

/-- The 32-bit pattern of an `i32` value. -/
def w32 (a : Int) : Nat :=
  (a % 2 ^ 32).toNat

/-- The `i32` value of a 32-bit pattern. -/
def of_w32 (n : Nat) : Int :=
  if n < 2 ^ 31 then (n : Int) else (n : Int) - 2 ^ 32

/-- `i32` bitwise and. -/
def and32 (a b : Int) : Int :=
  of_w32 (w32 a &&& w32 b)

/-- `i32` bitwise or. -/
def or32 (a b : Int) : Int :=
  of_w32 (w32 a ||| w32 b)

/-- `i32` left shift (wrapping). -/
def shl32i (a : Int) (n : Nat) : Int :=
  of_w32 ((w32 a <<< n) % 2 ^ 32)

/-- A chunk's voxel data: the `32 × 32 × 32` array as a function of the
local coordinates (ordered `[x][y][z]`). -/
def VoxelData : Type :=
  Nat → Nat → Nat → VoxelType

/-- A level, as `solid_at` observes it: which chunk ids currently hold
voxel data, and that data.  (`chunk_op` returning `None`, and a present
chunk whose `voxel` slot is still `None`, both collapse to `none`.) -/
def LevelData : Type :=
  Nat → IVec3 → Option VoxelData

/-- `chunk_and_local` from `server.rs`: Euclidean division/remainder of the
world coordinate by 32. -/
def chunk_and_local (w : IVec3) : IVec3 × IVec3 :=
  (⟨w.x / 32, w.y / 32, w.z / 32⟩, ⟨w.x % 32, w.y % 32, w.z % 32⟩)

/-- One coarsening step of the `solid_at` loop, exactly as in the source:
`local_pos = ((chunk_pos & 1) << 4) | (local_pos >> 1)` followed by
`chunk_pos = chunk_pos >> 1` (all on `i32` vectors; the local update reads
the old `chunk_pos`). -/
def solid_step (cp lp : IVec3) : IVec3 × IVec3 :=
  (cp.shr 1,
    ⟨or32 (shl32i (and32 cp.x 1) 4) (sar lp.x 1),
     or32 (shl32i (and32 cp.y 1) 4) (sar lp.y 1),
     or32 (shl32i (and32 cp.z 1) 4) (sar lp.z 1)⟩)

/-- The (chunk, local) pair the `solid_at` loop inspects at iteration `k`. -/
def visit_from (cp lp : IVec3) : Nat → IVec3 × IVec3
  | 0 => (cp, lp)
  | k + 1 =>
    let p := visit_from cp lp k
    solid_step p.1 p.2

/-- The (chunk, local) lookup pair at LOD `k` of `solid_at` for world
position `pos`. -/
def solid_visit (pos : IVec3) (k : Nat) : IVec3 × IVec3 :=
  visit_from (chunk_and_local pos).1 (chunk_and_local pos).2 k

/-- The `for lod in 0..=MAX_LOD` loop of `solid_at`, with the remaining
iteration count explicit; falls through to `true`. -/
def solid_at_go (lk : LevelData) : Nat → Nat → IVec3 → IVec3 → Bool
  | _, 0, _, _ => true
  | lod, steps + 1, cp, lp =>
    match lk lod cp with
    | some f => is_physically_solid (f lp.x.toNat lp.y.toNat lp.z.toNat)
    | none =>
      let p := solid_step cp lp
      solid_at_go lk (lod + 1) steps p.1 p.2

/-- `Server::solid_at`. -/
def solid_at (lk : LevelData) (pos : IVec3) : Bool :=
  solid_at_go lk 0 (MAX_LOD + 1) (chunk_and_local pos).1 (chunk_and_local pos).2

/-- Modelled from the spec's words for claim C5: the per-LOD update
`local |= (chunk_pos & 1) << 4` (the other bits of `local` unchanged)
and `chunk_pos >>= 1`. -/
def solid_step_spec (cp lp : IVec3) : IVec3 × IVec3 :=
  (cp.shr 1,
    ⟨or32 lp.x (shl32i (and32 cp.x 1) 4),
     or32 lp.y (shl32i (and32 cp.y 1) 4),
     or32 lp.z (shl32i (and32 cp.z 1) 4)⟩)

/-- Modelled from the spec: the `solid_at` walk with the spec's update. -/
def solid_at_spec_go (lk : LevelData) : Nat → Nat → IVec3 → IVec3 → Bool
  | _, 0, _, _ => true
  | lod, steps + 1, cp, lp =>
    match lk lod cp with
    | some f => is_physically_solid (f lp.x.toNat lp.y.toNat lp.z.toNat)
    | none =>
      let p := solid_step_spec cp lp
      solid_at_spec_go lk (lod + 1) steps p.1 p.2

/-- Modelled from the spec: `solid_at` with the claimed local update. -/
def solid_at_spec (lk : LevelData) (pos : IVec3) : Bool :=
  solid_at_spec_go lk 0 (MAX_LOD + 1) (chunk_and_local pos).1 (chunk_and_local pos).2

/-- Level used by the C5 counterexample: no data anywhere at LOD 0; at
LOD 1 only chunk `(0,0,0)` has data, which is Air at local `(0,0,0)` and
Stone everywhere else. -/
def c5_level : LevelData := fun lod cp =>
  if lod = 1 ∧ cp = ⟨0, 0, 0⟩ then
    some fun x y z => if x = 0 ∧ y = 0 ∧ z = 0 then VoxelType.Air else VoxelType.Stone
  else
    none

/-- Counterexample to claim C5 as stated: at world position `(1,0,0)` the
source derives the LOD-1 local coordinate `(0,0,0)`
(`local = ((chunk & 1) << 4) | (local >> 1)`), finds Air and answers
`false`, while the claimed update `local |= (chunk & 1) << 4` would keep
local `(1,0,0)`, find Stone and answer `true`. -/
theorem c5_counterexample :
    solid_at c5_level ⟨1, 0, 0⟩ = false ∧
    solid_at_spec c5_level ⟨1, 0, 0⟩ = true := by
  constructor
  · rfl
  · rfl

theorem visit_from_shift (cp lp : IVec3) (j : Nat) :
    visit_from cp lp (j + 1) =
      visit_from (solid_step cp lp).1 (solid_step cp lp).2 j := by
  induction j with
  | zero => rfl
  | succ j ih =>
    show solid_step (visit_from cp lp (j + 1)).1 (visit_from cp lp (j + 1)).2 = _
    rw [ih]
    rfl

theorem solid_at_go_all_missing (lk : LevelData) :
    ∀ steps lod (cp lp : IVec3),
      (∀ j, j < steps → lk (lod + j) (visit_from cp lp j).1 = none) →
      solid_at_go lk lod steps cp lp = true := by
  intro steps
  induction steps with
  | zero => intro lod cp lp _; rfl
  | succ steps ih =>
    intro lod cp lp h
    have h0 : lk lod cp = none := by
      have := h 0 (Nat.succ_pos steps)
      simpa [visit_from] using this
    rw [solid_at_go, h0]
    apply ih
    intro j hj
    have := h (j + 1) (by omega)
    rw [visit_from_shift] at this
    have harith : lod + (j + 1) = lod + 1 + j := by omega
    rw [harith] at this
    exact this

/-- Claim C5 (amended): `solid_at` walks LODs `0` through `MAX_LOD = 8`,
deriving each next lookup by `local = ((chunk_pos & 1) << 4) | (local >> 1)`
and `chunk_pos >>= 1` (the claimed `local |= (chunk_pos & 1) << 4` is wrong:
see the counterexample); whenever no voxel data is present at the looked-up
chunk of any LOD up to `MAX_LOD`, it returns `true`. -/
theorem c5_solid_at_all_lods_missing (lk : LevelData) (pos : IVec3)
    (h : ∀ k, k ≤ MAX_LOD → lk k (solid_visit pos k).1 = none) :
    solid_at lk pos = true := by
  apply solid_at_go_all_missing
  intro j hj
  have harith : 0 + j = j := by omega
  rw [harith]
  exact h j (by unfold MAX_LOD at *; omega)

/-- Witness for C5 (amended) on the empty level at world `(7, -5, 0)`. -/
theorem c5_solid_at_all_lods_missing_witness :
    (∀ k, k ≤ MAX_LOD →
      (fun _ _ => none : LevelData) k (solid_visit ⟨7, -5, 0⟩ k).1 = none) ∧
    solid_at (fun _ _ => none) ⟨7, -5, 0⟩ = true :=
  ⟨fun _ _ => rfl,
    c5_solid_at_all_lods_missing (fun _ _ => none) ⟨7, -5, 0⟩ fun _ _ => rfl⟩

/-! ### Bounds of the `solid_at` local coordinates (claim C9) -/

theorem of_w32_small (n : Nat) (h : n < 2 ^ 31) : of_w32 n = (n : Int) := by
  unfold of_w32
  rw [if_pos h]

theorem w32_small (a : Int) (h0 : 0 ≤ a) (h1 : a < 2 ^ 32) : (w32 a : Int) = a := by
  unfold w32
  rw [Int.emod_eq_of_lt h0 h1, Int.toNat_of_nonneg h0]

theorem and32_one_cases (c : Int) : and32 c 1 = 0 ∨ and32 c 1 = 1 := by
  unfold and32
  have h1 : w32 1 = 1 := rfl
  rw [h1, Nat.and_one_is_mod]
  rcases Nat.mod_two_eq_zero_or_one (w32 c) with h | h
  · left; rw [h]; rfl
  · right; rw [h]; rfl

theorem or32_bound (a b : Int) (ha0 : 0 ≤ a) (ha1 : a < 32) (hb0 : 0 ≤ b)
    (hb1 : b < 32) : 0 ≤ or32 a b ∧ or32 a b < 32 := by
  unfold or32
  have hwa : (w32 a : Int) = a := w32_small a ha0 (by omega)
  have hwb : (w32 b : Int) = b := w32_small b hb0 (by omega)
  have hwa' : w32 a < 2 ^ 5 := by omega
  have hwb' : w32 b < 2 ^ 5 := by omega
  have hor : w32 a ||| w32 b < 2 ^ 5 := Nat.or_lt_two_pow hwa' hwb'
  rw [of_w32_small _ (by omega)]
  omega

theorem solid_step_component_bound (c l : Int) (h0 : 0 ≤ l) (h1 : l < 32) :
    0 ≤ or32 (shl32i (and32 c 1) 4) (sar l 1) ∧
      or32 (shl32i (and32 c 1) 4) (sar l 1) < 32 := by
  have hsar0 : sar l 1 = l / 2 := by
    unfold sar
    rw [pow_one]
    exact Int.fdiv_eq_ediv l (by norm_num)
  have hsl : 0 ≤ sar l 1 ∧ sar l 1 < 32 := by rw [hsar0]; omega
  rcases and32_one_cases c with h | h
  · have hshl : shl32i (and32 c 1) 4 = 0 := by rw [h]; rfl
    rw [hshl]
    exact or32_bound 0 (sar l 1) (by omega) (by omega) hsl.1 hsl.2
  · have hshl : shl32i (and32 c 1) 4 = 16 := by rw [h]; rfl
    rw [hshl]
    exact or32_bound 16 (sar l 1) (by omega) (by omega) hsl.1 hsl.2

/-- Claim C9: for every world coordinate (negative components included) and
every LOD iteration `k`, the local coordinate `solid_at` would use to index
the `32×32×32` voxel array stays within `[0, 32)` on every axis: the
initial `rem_euclid(32)` lands in range and the per-LOD update
`((chunk_pos & 1) << 4) | (local_pos >> 1)` preserves it. -/
theorem c9_solid_at_local_in_bounds (pos : IVec3) (k : Nat) :
    (0 ≤ (solid_visit pos k).2.x ∧ (solid_visit pos k).2.x < 32) ∧
    (0 ≤ (solid_visit pos k).2.y ∧ (solid_visit pos k).2.y < 32) ∧
    (0 ≤ (solid_visit pos k).2.z ∧ (solid_visit pos k).2.z < 32) := by
  unfold solid_visit
  induction k with
  | zero =>
    unfold visit_from chunk_and_local
    refine ⟨⟨?_, ?_⟩, ⟨?_, ?_⟩, ?_, ?_⟩ <;> simp only <;> omega
  | succ k ih =>
    show (0 ≤ (solid_step _ _).2.x ∧ _) ∧ _
    obtain ⟨⟨hx0, hx1⟩, ⟨hy0, hy1⟩, hz0, hz1⟩ := ih
    unfold solid_step
    exact ⟨solid_step_component_bound _ _ hx0 hx1,
      solid_step_component_bound _ _ hy0 hy1,
      solid_step_component_bound _ _ hz0 hz1⟩

/-! ### Frustum flood fill (`frustum.rs::Frustum::flood_fill`)

The floating-point ingredients are abstracted as parameters: `inF` stands
for the six-plane `in_frustum` test and `lodAt` for the distance-derived
`lod_level_at(full_detail_range, cam_pos, (neighbor.total_pos() & !1))`.
The claims proved below hold for every instantiation of these parameters,
hence in particular for the source's `f32` predicates. -/

/-- `chunk_neighbors` from `frustum.rs`: the six axial neighbors at the
same lod, in source order. -/
def chunk_neighbors (c : ChunkID) : List ChunkID :=
  [⟨c.lod, c.pos.add ⟨-1, 0, 0⟩⟩, ⟨c.lod, c.pos.add ⟨1, 0, 0⟩⟩,
   ⟨c.lod, c.pos.add ⟨0, -1, 0⟩⟩, ⟨c.lod, c.pos.add ⟨0, 1, 0⟩⟩,
   ⟨c.lod, c.pos.add ⟨0, 0, -1⟩⟩, ⟨c.lod, c.pos.add ⟨0, 0, 1⟩⟩]

/-- The mutable state of the flood-fill loop: accepted chunks, the
`already_queued` set (as a list, membership only), the current-LOD queue
`candidates` and the `next_lods_candidates` queue. -/
structure FFState where
  chunks : List ChunkID
  queued : List ChunkID
  cands : List ChunkID
  next : List ChunkID
  deriving Repr

/-- The body of `for neighbor in chunk_neighbors(chunk)`: if the neighbor
newly enters `already_queued`, route it — parent onto the next-LOD queue
when the desired lod exceeds the current chunk's lod and the parent also
newly enters the set; the neighbor onto the current queue when the desired
lod equals the current lod; nothing otherwise. -/
def process_neighbor (lodAt : ChunkID → Nat) (cur_lod : Nat) (st : FFState)
    (n : ChunkID) : FFState :=
  if n ∈ st.queued then st
  else if cur_lod < lodAt n then
    if n.parent ∈ n :: st.queued then
      { st with queued := n :: st.queued }
    else
      { st with queued := n.parent :: n :: st.queued, next := st.next ++ [n.parent] }
  else if lodAt n = cur_lod then
    { st with queued := n :: st.queued, cands := st.cands ++ [n] }
  else
    { st with queued := n :: st.queued }

/-- The `while let Some(chunk) = candidates.pop_front()` loop with an
explicit fuel (the source loop provably pops at most
`1 + 12 * max_chunks` queue entries, so the fuel below never cuts a run
short; every property proved about it holds for every fuel anyway). -/
def flood_loop (inF : ChunkID → Bool) (lodAt : ChunkID → Nat) (max_chunks : Nat) :
    Nat → FFState → List ChunkID
  | 0, st => st.chunks
  | fuel + 1, st =>
    match st.cands with
    | [] => st.chunks
    | c :: rest =>
      if inF c then
        let chunks1 := st.chunks ++ [c]
        if max_chunks ≤ chunks1.length then chunks1
        else
          let st1 := (chunk_neighbors c).foldl (process_neighbor lodAt c.lod)
            { st with chunks := chunks1, cands := rest }
          let st2 := if st1.cands.isEmpty then
              { st1 with cands := st1.next, next := [] }
            else st1
          flood_loop inF lodAt max_chunks fuel st2
      else
        let st1 : FFState := { st with cands := rest }
        let st2 := if st1.cands.isEmpty then
            { st1 with cands := st1.next, next := [] }
          else st1
        flood_loop inF lodAt max_chunks fuel st2

/-- `Frustum::flood_fill`, seeded with the camera's LOD-0 base chunk. -/
def flood_fill (inF : ChunkID → Bool) (lodAt : ChunkID → Nat) (max_chunks : Nat)
    (base : ChunkID) : List ChunkID :=
  if max_chunks = 0 then []
  else flood_loop inF lodAt max_chunks (2 + 12 * max_chunks) ⟨[], [base], [base], []⟩

/-- Claim C4 (amended): for a not-yet-queued neighbor `n` of a visited
chunk of lod `cur_lod`, the loop body enqueues the parent on the next-LOD
queue only when the desired lod strictly exceeds `cur_lod` *and* the
parent is itself not yet queued; it enqueues `n` on the current queue when
the desired lod equals `cur_lod`; and when the desired lod is strictly
lower (or the parent was already queued), it enqueues nothing. -/
theorem c4_process_neighbor_routing (lodAt : ChunkID → Nat) (cur_lod : Nat)
    (st : FFState) (n : ChunkID) (hn : n ∉ st.queued) :
    (cur_lod < lodAt n → n.parent ∉ n :: st.queued →
      (process_neighbor lodAt cur_lod st n).next = st.next ++ [n.parent] ∧
      (process_neighbor lodAt cur_lod st n).cands = st.cands) ∧
    (cur_lod < lodAt n → n.parent ∈ n :: st.queued →
      process_neighbor lodAt cur_lod st n = { st with queued := n :: st.queued }) ∧
    (lodAt n = cur_lod →
      (process_neighbor lodAt cur_lod st n).cands = st.cands ++ [n] ∧
      (process_neighbor lodAt cur_lod st n).next = st.next) ∧
    (lodAt n < cur_lod →
      process_neighbor lodAt cur_lod st n = { st with queued := n :: st.queued }) := by
  refine ⟨?_, ?_, ?_, ?_⟩
  · intro hlt hp
    rw [process_neighbor, if_neg hn, if_pos hlt, if_neg hp]
    exact ⟨rfl, rfl⟩
  · intro hlt hp
    rw [process_neighbor, if_neg hn, if_pos hlt, if_pos hp]
  · intro heq
    have hnlt : ¬ cur_lod < lodAt n := by omega
    rw [process_neighbor, if_neg hn, if_neg hnlt, if_pos heq]
    exact ⟨rfl, rfl⟩
  · intro hlt
    have hnlt : ¬ cur_lod < lodAt n := by omega
    have hne : ¬ lodAt n = cur_lod := by omega
    rw [process_neighbor, if_neg hn, if_neg hnlt, if_neg hne]

/-- Witness for C4 (amended): a lod-1 chunk with a fresh neighbor whose
desired lod is 0. -/
theorem c4_process_neighbor_routing_witness :
    (⟨1, ⟨1, 0, 0⟩⟩ : ChunkID) ∉ (⟨[], [], [], []⟩ : FFState).queued ∧
    ((0 : Nat) < 1 →
      process_neighbor (fun _ => 0) 1 ⟨[], [], [], []⟩ ⟨1, ⟨1, 0, 0⟩⟩ =
        { (⟨[], [], [], []⟩ : FFState) with
            queued := [⟨1, ⟨1, 0, 0⟩⟩] }) := by
  constructor
  · simp
  · intro _
    exact (c4_process_neighbor_routing (fun _ => 0) 1 ⟨[], [], [], []⟩
      ⟨1, ⟨1, 0, 0⟩⟩ (by simp)).2.2.2 (by omega)

/-- Counterexample to claim C4 as stated: (a) a fresh neighbor whose
desired lod `0` is strictly below the current chunk's lod `1` is enqueued
on neither queue (the claim says it goes on the current-LOD queue); (b) a
fresh neighbor with desired lod `5 > 1` whose parent is already queued
leaves the next-LOD queue empty as well. -/
theorem c4_counterexample :
    (process_neighbor (fun _ => 0) 1 ⟨[], [], [], []⟩ ⟨1, ⟨1, 0, 0⟩⟩).cands = [] ∧
    (process_neighbor (fun _ => 0) 1 ⟨[], [], [], []⟩ ⟨1, ⟨1, 0, 0⟩⟩).next = [] ∧
    (process_neighbor (fun _ => 5) 1 ⟨[], [⟨2, ⟨0, 0, 0⟩⟩], [], []⟩
      ⟨1, ⟨1, 0, 0⟩⟩).next = [] ∧
    (⟨1, ⟨1, 0, 0⟩⟩ : ChunkID).parent = ⟨2, ⟨0, 0, 0⟩⟩ := by
  refine ⟨by decide, by decide, by decide, by decide⟩

/-- All chunk ids held in the three lists of a flood-fill state. -/
def all_list (st : FFState) : List ChunkID :=
  st.chunks ++ st.cands ++ st.next

theorem process_neighbor_chunks (lodAt : ChunkID → Nat) (cl : Nat) (st : FFState)
    (n : ChunkID) : (process_neighbor lodAt cl st n).chunks = st.chunks := by
  unfold process_neighbor
  split_ifs <;> rfl

theorem process_neighbor_inv (lodAt : ChunkID → Nat) (cl : Nat) (st : FFState)
    (n : ChunkID) (hnd : (all_list st).Nodup)
    (hsub : ∀ c ∈ all_list st, c ∈ st.queued) :
    (all_list (process_neighbor lodAt cl st n)).Nodup ∧
    ∀ c ∈ all_list (process_neighbor lodAt cl st n),
      c ∈ (process_neighbor lodAt cl st n).queued := by
  unfold process_neighbor
  split_ifs with hq hlt hp heq
  · exact ⟨hnd, hsub⟩
  · refine ⟨hnd, ?_⟩
    intro c hc
    exact List.mem_cons_of_mem _ (hsub c hc)
  · have hpq : n.parent ∉ st.queued := fun h => hp (List.mem_cons_of_mem _ h)
    have hpa : n.parent ∉ all_list st := fun h => hpq (hsub _ h)
    constructor
    · show (st.chunks ++ st.cands ++ (st.next ++ [n.parent])).Nodup
      have he : st.chunks ++ st.cands ++ (st.next ++ [n.parent]) =
          (st.chunks ++ st.cands ++ st.next) ++ [n.parent] := by
        simp [List.append_assoc]
      rw [he]
      rw [List.nodup_append]
      refine ⟨hnd, List.nodup_singleton _, ?_⟩
      intro a ha hb
      have : a = n.parent := by simpa using hb
      rw [this] at ha
      exact hpa ha
    · intro c hc
      show c ∈ n.parent :: n :: st.queued
      have hc' : c ∈ all_list st ∨ c = n.parent := by
        have : c ∈ st.chunks ++ st.cands ++ (st.next ++ [n.parent]) := hc
        simp only [all_list, List.mem_append, List.mem_singleton] at this ⊢
        tauto
      rcases hc' with h | h
      · exact List.mem_cons_of_mem _ (List.mem_cons_of_mem _ (hsub c h))
      · rw [h]; exact List.mem_cons_self _ _
  · have hna : n ∉ all_list st := fun h => hq (hsub _ h)
    constructor
    · show (st.chunks ++ (st.cands ++ [n]) ++ st.next).Nodup
      have he : st.chunks ++ (st.cands ++ [n]) ++ st.next =
          (st.chunks ++ st.cands) ++ n :: st.next := by
        simp [List.append_assoc]
      rw [he, List.nodup_middle]
      rw [List.nodup_cons]
      constructor
      · intro h
        apply hna
        simp only [all_list, List.mem_append] at h ⊢
        tauto
      · simpa [all_list, List.append_assoc] using hnd
    · intro c hc
      show c ∈ n :: st.queued
      have hc' : c ∈ all_list st ∨ c = n := by
        have : c ∈ st.chunks ++ (st.cands ++ [n]) ++ st.next := hc
        simp only [all_list, List.mem_append, List.mem_singleton] at this ⊢
        tauto
      rcases hc' with h | h
      · exact List.mem_cons_of_mem _ (hsub c h)
      · rw [h]; exact List.mem_cons_self _ _
  · refine ⟨hnd, ?_⟩
    intro c hc
    exact List.mem_cons_of_mem _ (hsub c hc)

theorem foldl_process_neighbor_inv (lodAt : ChunkID → Nat) (cl : Nat) :
    ∀ (l : List ChunkID) (st : FFState), (all_list st).Nodup →
      (∀ c ∈ all_list st, c ∈ st.queued) →
      ((l.foldl (process_neighbor lodAt cl) st).chunks = st.chunks ∧
        (all_list (l.foldl (process_neighbor lodAt cl) st)).Nodup ∧
        ∀ c ∈ all_list (l.foldl (process_neighbor lodAt cl) st),
          c ∈ (l.foldl (process_neighbor lodAt cl) st).queued) := by
  intro l
  induction l with
  | nil => intro st hnd hsub; exact ⟨rfl, hnd, hsub⟩
  | cons n rest ih =>
    intro st hnd hsub
    have h1 := process_neighbor_inv lodAt cl st n hnd hsub
    have h2 := ih (process_neighbor lodAt cl st n) h1.1 h1.2
    refine ⟨?_, h2.2.1, h2.2.2⟩
    rw [List.foldl_cons, h2.1, process_neighbor_chunks]

theorem swap_state_inv (st1 : FFState) (hnd : (all_list st1).Nodup)
    (hsub : ∀ c ∈ all_list st1, c ∈ st1.queued) :
    (all_list (if st1.cands.isEmpty then { st1 with cands := st1.next, next := [] }
        else st1)).Nodup ∧
    (∀ c ∈ all_list (if st1.cands.isEmpty then
        { st1 with cands := st1.next, next := [] } else st1),
      c ∈ (if st1.cands.isEmpty then { st1 with cands := st1.next, next := [] }
        else st1).queued) ∧
    (if st1.cands.isEmpty then { st1 with cands := st1.next, next := [] }
      else st1).chunks = st1.chunks := by
  by_cases h : st1.cands.isEmpty
  · rw [if_pos h]
    have hc : st1.cands = [] := List.isEmpty_iff.mp h
    refine ⟨by simpa [all_list, hc] using hnd, ?_, rfl⟩
    intro c hcm
    show c ∈ st1.queued
    apply hsub
    simp only [all_list, List.mem_append] at hcm ⊢
    simp [hc]
    tauto
  · rw [if_neg h]
    exact ⟨hnd, hsub, rfl⟩

theorem flood_loop_props (inF : ChunkID → Bool) (lodAt : ChunkID → Nat)
    (max_chunks : Nat) :
    ∀ (fuel : Nat) (st : FFState), (all_list st).Nodup →
      (∀ c ∈ all_list st, c ∈ st.queued) →
      (∀ c ∈ st.chunks, inF c = true) →
      st.chunks.length < max_chunks →
      ((flood_loop inF lodAt max_chunks fuel st).Nodup ∧
        (flood_loop inF lodAt max_chunks fuel st).length ≤ max_chunks ∧
        ∀ c ∈ flood_loop inF lodAt max_chunks fuel st, inF c = true) := by
  intro fuel
  induction fuel with
  | zero =>
    intro st hnd hsub hin hlen
    rw [flood_loop]
    have hs1 : st.chunks.Sublist (st.chunks ++ st.cands) := List.sublist_append_left _ _
    have hs2 : (st.chunks ++ st.cands).Sublist (st.chunks ++ st.cands ++ st.next) :=
      List.sublist_append_left _ _
    exact ⟨List.Nodup.sublist (hs1.trans hs2) hnd, by omega, hin⟩
  | succ fuel ih =>
    intro st hnd hsub hin hlen
    obtain ⟨chunksL, queuedL, candsL, nextL⟩ := st
    rw [flood_loop]
    cases candsL with
    | nil =>
      simp only
      have hs1 : chunksL.Sublist (chunksL ++ []) := List.sublist_append_left _ _
      have hs2 : (chunksL ++ []).Sublist (chunksL ++ [] ++ nextL) :=
        List.sublist_append_left _ _
      exact ⟨List.Nodup.sublist (hs1.trans hs2) hnd, Nat.le_of_lt hlen, hin⟩
    | cons c rest =>
      simp only
      by_cases hf : inF c = true
      · rw [if_pos hf]
        by_cases hmax : max_chunks ≤ (chunksL ++ [c]).length
        · rw [if_pos hmax]
          have hsl : (chunksL ++ [c]).Sublist
              (all_list ⟨chunksL, queuedL, c :: rest, nextL⟩) := by
            show (chunksL ++ [c]).Sublist (chunksL ++ (c :: rest) ++ nextL)
            have h1 : ([c] : List ChunkID).Sublist (c :: rest) := by
              simpa using List.sublist_append_left [c] rest
            exact (h1.append_left chunksL).trans (List.sublist_append_left _ _)
          refine ⟨List.Nodup.sublist hsl hnd, ?_, ?_⟩
          · have : chunksL.length < max_chunks := hlen
            simp only [List.length_append, List.length_singleton]
            omega
          · intro x hx
            rcases List.mem_append.mp hx with h | h
            · exact hin x h
            · have : x = c := by simpa using h
              rw [this]; exact hf
        · rw [if_neg hmax]
          have hpre_nd : (all_list ⟨chunksL ++ [c], queuedL, rest, nextL⟩).Nodup := by
            have he : all_list ⟨chunksL ++ [c], queuedL, rest, nextL⟩ =
                all_list ⟨chunksL, queuedL, c :: rest, nextL⟩ := by
              simp [all_list, List.append_assoc]
            rw [he]; exact hnd
          have hpre_sub : ∀ x ∈ all_list ⟨chunksL ++ [c], queuedL, rest, nextL⟩,
              x ∈ queuedL := by
            intro x hx
            apply hsub
            simp only [all_list, List.mem_append, List.mem_cons,
              List.mem_singleton] at hx ⊢
            tauto
          have hfold := foldl_process_neighbor_inv lodAt c.lod (chunk_neighbors c)
            ⟨chunksL ++ [c], queuedL, rest, nextL⟩ hpre_nd hpre_sub
          set st1 := (chunk_neighbors c).foldl (process_neighbor lodAt c.lod)
            ⟨chunksL ++ [c], queuedL, rest, nextL⟩ with hst1
          have hswap := swap_state_inv st1 hfold.2.1 hfold.2.2
          apply ih
          · exact hswap.1
          · exact hswap.2.1
          · rw [hswap.2.2, hfold.1]
            intro x hx
            rcases List.mem_append.mp hx with h | h
            · exact hin x h
            · have : x = c := by simpa using h
              rw [this]; exact hf
          · rw [hswap.2.2, hfold.1]
            simp only [List.length_append, List.length_singleton] at hmax ⊢
            omega
      · rw [if_neg hf]
        have hsl : (all_list ⟨chunksL, queuedL, rest, nextL⟩).Sublist
            (all_list ⟨chunksL, queuedL, c :: rest, nextL⟩) := by
          show (chunksL ++ rest ++ nextL).Sublist (chunksL ++ (c :: rest) ++ nextL)
          exact ((List.sublist_cons_self c rest).append_left chunksL).append_right nextL
        have hnd1 : (all_list ⟨chunksL, queuedL, rest, nextL⟩).Nodup :=
          List.Nodup.sublist hsl hnd
        have hsub1 : ∀ x ∈ all_list ⟨chunksL, queuedL, rest, nextL⟩, x ∈ queuedL :=
          fun x hx => hsub x (hsl.mem hx)
        have hswap := swap_state_inv ⟨chunksL, queuedL, rest, nextL⟩ hnd1 hsub1
        apply ih
        · exact hswap.1
        · exact hswap.2.1
        · rw [hswap.2.2]; exact hin
        · rw [hswap.2.2]; exact hlen

/-- Claim C7: for every frustum predicate, desired-lod assignment, chunk
budget and base chunk, `flood_fill` returns pairwise-distinct chunk ids,
at most `max_chunks` of them, all passing the frustum test; for
`max_chunks = 0` it returns the empty list. -/
theorem c7_flood_fill_props (inF : ChunkID → Bool) (lodAt : ChunkID → Nat)
    (max_chunks : Nat) (base : ChunkID) :
    (flood_fill inF lodAt max_chunks base).Nodup ∧
    (flood_fill inF lodAt max_chunks base).length ≤ max_chunks ∧
    (∀ c ∈ flood_fill inF lodAt max_chunks base, inF c = true) ∧
    (max_chunks = 0 → flood_fill inF lodAt max_chunks base = []) := by
  unfold flood_fill
  by_cases h : max_chunks = 0
  · rw [if_pos h]
    simp
  · rw [if_neg h]
    have hprops := flood_loop_props inF lodAt max_chunks (2 + 12 * max_chunks)
      ⟨[], [base], [base], []⟩
      (by simp [all_list])
      (by intro c hc; simp only [all_list] at hc; simpa using hc)
      (by intro c hc; simp at hc)
      (by simp; omega)
    exact ⟨hprops.1, hprops.2.1, hprops.2.2, fun h0 => absurd h0 h⟩

/-! ### Occlusion bitmaps (`meshing.rs`)

A `BitMap3D` word is a `u32`, embedded as a `Nat < 2^32`; voxel `k` along
the packed axis occupies bit `31 - k` (the source ORs
`FIRST_BIT >> k = 2^31 >>> k` into the word). -/

/-- `VoxelType::is_solid_u32`: `FIRST_BIT` for non-Air (`self as u8 > 0`),
else `0`. -/
def is_solid_u32 (v : VoxelType) : Nat :=
  if 0 < v.discr then 2 ^ 31 else 0

/-- One word of an axis-aligned solid map.  The source's triple loop over
`(x, y, z)` ORs `is_solid_u32 >> k` into the word at the other two
coordinates; restricted to one word this is exactly this fold over the
packed axis (the source's `if voxel_is_solid_u32 > 0` guard only skips
ORing a zero). -/
def pack_word (f : Nat → Nat) : Nat :=
  (List.range 32).foldl (fun w k => w ||| (f k >>> k)) 0

/-- A level as the occlusion builder observes it. -/
def MeshLevel : Type :=
  ChunkID → Option VoxelData

/-- `voxel::fill(VoxelType::Air)`. -/
def air_fill : VoxelData :=
  fun _ _ _ => VoxelType.Air

/-- `get_data` from `meshing.rs`: a chunk absent from the level (or without
voxel data) reads as all Air. -/
def get_data (level : MeshLevel) (id : ChunkID) : VoxelData :=
  (level id).getD air_fill

/-- `x_aligned[y][z]` of `get_axis_aligned_solid_maps` /
`get_x_aligned_solid_map`. -/
def x_aligned_word (d : VoxelData) (y z : Nat) : Nat :=
  pack_word fun x => is_solid_u32 (d x y z)

/-- `y_aligned[z][x]`. -/
def y_aligned_word (d : VoxelData) (z x : Nat) : Nat :=
  pack_word fun y => is_solid_u32 (d x y z)

/-- `z_aligned[x][y]`. -/
def z_aligned_word (d : VoxelData) (x y : Nat) : Nat :=
  pack_word fun z => is_solid_u32 (d x y z)

/-- `u32` bitwise complement (`!` in Rust). -/
def lnot32 (v : Nat) : Nat :=
  v ^^^ (2 ^ 32 - 1)

/-- `u32` left shift (the source only shifts by 1 and 31, both in range). -/
def u32_shl (v n : Nat) : Nat :=
  (v <<< n) % 2 ^ 32

/-- The negative-direction face word:
`a & !((a >> 1) | (neighbor << 31))`. -/
def face_neg (a nb : Nat) : Nat :=
  a &&& lnot32 ((a >>> 1) ||| u32_shl nb 31)

/-- The positive-direction face word:
`a & !((a << 1) | (neighbor >> 31))`. -/
def face_pos (a pb : Nat) : Nat :=
  a &&& lnot32 (u32_shl a 1 ||| (pb >>> 31))

/-- `map_visible` from `meshing.rs`: the six face masks, as a function of
direction (`0=-x, 1=+x, 2=-y, 3=+y, 4=-z, 5=+z`) and the two word indices
(`[y][z]` for x-faces, `[z][x]` for y-faces, `[x][y]` for z-faces). -/
def map_visible (level : MeshLevel) (c : ChunkID) (dir i j : Nat) : Nat :=
  let dat := get_data level c
  match dir with
  | 0 => face_neg (x_aligned_word dat i j)
      (x_aligned_word (get_data level ⟨c.lod, c.pos.add ⟨-1, 0, 0⟩⟩) i j)
  | 1 => face_pos (x_aligned_word dat i j)
      (x_aligned_word (get_data level ⟨c.lod, c.pos.add ⟨1, 0, 0⟩⟩) i j)
  | 2 => face_neg (y_aligned_word dat i j)
      (y_aligned_word (get_data level ⟨c.lod, c.pos.add ⟨0, -1, 0⟩⟩) i j)
  | 3 => face_pos (y_aligned_word dat i j)
      (y_aligned_word (get_data level ⟨c.lod, c.pos.add ⟨0, 1, 0⟩⟩) i j)
  | 4 => face_neg (z_aligned_word dat i j)
      (z_aligned_word (get_data level ⟨c.lod, c.pos.add ⟨0, 0, -1⟩⟩) i j)
  | _ => face_pos (z_aligned_word dat i j)
      (z_aligned_word (get_data level ⟨c.lod, c.pos.add ⟨0, 0, 1⟩⟩) i j)

/-- The bit of the face mask that belongs to voxel `(x, y, z)` in a given
direction (bit `31 - k` of the word indexed by the other two coordinates,
exactly as `generate_mesh` reads it with `FIRST_BIT >> k`). -/
def face_bit (faces : Nat → Nat → Nat → Nat) (dir x y z : Nat) : Bool :=
  match dir with
  | 0 => (faces 0 y z).testBit (31 - x)
  | 1 => (faces 1 y z).testBit (31 - x)
  | 2 => (faces 2 z x).testBit (31 - y)
  | 3 => (faces 3 z x).testBit (31 - y)
  | 4 => (faces 4 x y).testBit (31 - z)
  | _ => (faces 5 x y).testBit (31 - z)

/-- The claim's naive per-voxel reference: the face of voxel `(x,y,z)` in
direction `dir` is visible iff the voxel is solid and the adjacent voxel
one step along `dir` — taken from the same-LOD neighbor chunk when the
step crosses the chunk boundary — is air. -/
def vis_ref (level : MeshLevel) (c : ChunkID) (dir x y z : Nat) : Bool :=
  let dat := get_data level c
  match dir with
  | 0 => is_physically_solid (dat x y z) &&
      !(if x = 0 then
          is_physically_solid (get_data level ⟨c.lod, c.pos.add ⟨-1, 0, 0⟩⟩ 31 y z)
        else is_physically_solid (dat (x - 1) y z))
  | 1 => is_physically_solid (dat x y z) &&
      !(if x = 31 then
          is_physically_solid (get_data level ⟨c.lod, c.pos.add ⟨1, 0, 0⟩⟩ 0 y z)
        else is_physically_solid (dat (x + 1) y z))
  | 2 => is_physically_solid (dat x y z) &&
      !(if y = 0 then
          is_physically_solid (get_data level ⟨c.lod, c.pos.add ⟨0, -1, 0⟩⟩ x 31 z)
        else is_physically_solid (dat x (y - 1) z))
  | 3 => is_physically_solid (dat x y z) &&
      !(if y = 31 then
          is_physically_solid (get_data level ⟨c.lod, c.pos.add ⟨0, 1, 0⟩⟩ x 0 z)
        else is_physically_solid (dat x (y + 1) z))
  | 4 => is_physically_solid (dat x y z) &&
      !(if z = 0 then
          is_physically_solid (get_data level ⟨c.lod, c.pos.add ⟨0, 0, -1⟩⟩ x y 31)
        else is_physically_solid (dat x y (z - 1)))
  | _ => is_physically_solid (dat x y z) &&
      !(if z = 31 then
          is_physically_solid (get_data level ⟨c.lod, c.pos.add ⟨0, 0, 1⟩⟩ x y 0)
        else is_physically_solid (dat x y (z + 1)))

theorem foldl_or_testBit (g : Nat → Nat) (l : List Nat) (a i : Nat) :
    (l.foldl (fun w k => w ||| (g k >>> k)) a).testBit i =
      (a.testBit i || l.any fun k => (g k >>> k).testBit i) := by
  induction l generalizing a with
  | nil => simp
  | cons k rest ih =>
    rw [List.foldl_cons, ih, List.any_cons, Nat.testBit_or, Bool.or_assoc]

theorem is_solid_u32_eq (v : VoxelType) :
    is_solid_u32 v = if is_physically_solid v then 2 ^ 31 else 0 := by
  cases v <;> rfl

theorem pack_word_testBit (s : Nat → VoxelType) (i : Nat) :
    (pack_word fun k => is_solid_u32 (s k)).testBit i =
      (decide (i < 32) && is_physically_solid (s (31 - i))) := by
  unfold pack_word
  rw [foldl_or_testBit, Nat.zero_testBit, Bool.false_or]
  have hpred : ∀ k, (is_solid_u32 (s k) >>> k).testBit i =
      (is_physically_solid (s k) && decide (31 = k + i)) := by
    intro k
    rw [Nat.testBit_shiftRight, is_solid_u32_eq]
    cases hs : is_physically_solid (s k)
    · simp
    · rw [if_pos rfl, Nat.testBit_two_pow, Bool.true_and]
  rcases lt_or_ge i 32 with hi | hi
  · cases hsol : is_physically_solid (s (31 - i))
    · rw [decide_eq_true hi, Bool.true_and]
      apply List.any_eq_false.mpr
      intro k _
      rw [hpred]
      simp only [Bool.and_eq_true, decide_eq_true_eq, not_and]
      intro hks hk31
      have hk : k = 31 - i := by omega
      rw [hk, hsol] at hks
      exact Bool.false_ne_true hks
    · rw [decide_eq_true hi, Bool.true_and]
      apply List.any_eq_true.mpr
      refine ⟨31 - i, ?_, ?_⟩
      · rw [List.mem_range]; omega
      · rw [hpred, hsol, Bool.true_and, decide_eq_true_eq]
        omega
  · have hd : decide (i < 32) = false := by simp; omega
    rw [hd, Bool.false_and]
    apply List.any_eq_false.mpr
    intro k hk
    rw [hpred]
    simp only [Bool.and_eq_true, decide_eq_true_eq, not_and]
    rw [List.mem_range] at hk
    intro _
    omega

theorem face_neg_testBit (sA sN : Nat → VoxelType) (x : Nat) (hx : x < 32) :
    (face_neg (pack_word fun k => is_solid_u32 (sA k))
        (pack_word fun k => is_solid_u32 (sN k))).testBit (31 - x) =
      (is_physically_solid (sA x) &&
        !(if x = 0 then is_physically_solid (sN 31)
          else is_physically_solid (sA (x - 1)))) := by
  unfold face_neg lnot32 u32_shl
  rw [Nat.testBit_and, Nat.testBit_xor, Nat.testBit_or, Nat.testBit_shiftRight,
    Nat.testBit_mod_two_pow, Nat.testBit_shiftLeft]
  simp only [pack_word_testBit]
  rw [Nat.testBit_two_pow_sub_one]
  by_cases hx0 : x = 0
  · subst hx0
    norm_num
  · have e1 : 31 - (31 - x) = x := by omega
    have e2 : 1 + (31 - x) = 32 - x := by omega
    have e3 : 31 - (32 - x) = x - 1 := by omega
    have d1 : decide (31 - x < 32) = true := by simp; omega
    have d2 : decide (32 - x < 32) = true := by simp; omega
    have d3 : decide (31 ≤ 31 - x) = false := by simp; omega
    rw [e1, e2, e3, d1, d2, d3, if_neg hx0]
    simp

theorem face_pos_testBit (sA sP : Nat → VoxelType) (x : Nat) (hx : x < 32) :
    (face_pos (pack_word fun k => is_solid_u32 (sA k))
        (pack_word fun k => is_solid_u32 (sP k))).testBit (31 - x) =
      (is_physically_solid (sA x) &&
        !(if x = 31 then is_physically_solid (sP 0)
          else is_physically_solid (sA (x + 1)))) := by
  unfold face_pos lnot32 u32_shl
  rw [Nat.testBit_and, Nat.testBit_xor, Nat.testBit_or, Nat.testBit_shiftRight,
    Nat.testBit_mod_two_pow, Nat.testBit_shiftLeft]
  simp only [pack_word_testBit]
  rw [Nat.testBit_two_pow_sub_one]
  by_cases hx31 : x = 31
  · subst hx31
    norm_num
  · have e1 : 31 - (31 - x) = x := by omega
    have e2 : 31 - x - 1 = 31 - (x + 1) := by omega
    have e3 : 31 - (31 - (x + 1)) = x + 1 := by omega
    have e4 : 31 + (31 - x) = 62 - x := by omega
    have d1 : decide (31 - x < 32) = true := by simp; omega
    have d2 : decide (1 ≤ 31 - x) = true := by simp; omega
    have d3 : decide (31 - (x + 1) < 32) = true := by simp; omega
    have d4 : decide (62 - x < 32) = false := by simp; omega
    rw [e1, e2, e3, e4, d1, d2, d3, d4, if_neg hx31]
    simp

/-- Claim C3: for every level (absent neighbors and neighbors without voxel
data read as all Air via `get_data`) and every chunk, each bit of the six
visibility masks built by `map_visible` equals the naive per-voxel
reference: the bit for voxel `(x,y,z)` in face direction `dir` is set iff
that voxel is solid and the adjacent voxel one step along `dir` (possibly
in the neighbor chunk) is air. -/
theorem c3_map_visible_eq_naive (level : MeshLevel) (c : ChunkID)
    (dir x y z : Nat) (hdir : dir < 6) (hx : x < 32) (hy : y < 32) (hz : z < 32) :
    face_bit (map_visible level c) dir x y z = vis_ref level c dir x y z := by
  interval_cases dir
  · exact face_neg_testBit (fun k => get_data level c k y z)
      (fun k => get_data level ⟨c.lod, c.pos.add ⟨-1, 0, 0⟩⟩ k y z) x hx
  · exact face_pos_testBit (fun k => get_data level c k y z)
      (fun k => get_data level ⟨c.lod, c.pos.add ⟨1, 0, 0⟩⟩ k y z) x hx
  · exact face_neg_testBit (fun k => get_data level c x k z)
      (fun k => get_data level ⟨c.lod, c.pos.add ⟨0, -1, 0⟩⟩ x k z) y hy
  · exact face_pos_testBit (fun k => get_data level c x k z)
      (fun k => get_data level ⟨c.lod, c.pos.add ⟨0, 1, 0⟩⟩ x k z) y hy
  · exact face_neg_testBit (fun k => get_data level c x y k)
      (fun k => get_data level ⟨c.lod, c.pos.add ⟨0, 0, -1⟩⟩ x y k) z hz
  · exact face_pos_testBit (fun k => get_data level c x y k)
      (fun k => get_data level ⟨c.lod, c.pos.add ⟨0, 0, 1⟩⟩ x y k) z hz

/-- Witness for C3 on a level holding one chunk with a lone Stone voxel at
local `(5,0,0)`, read in direction `-x` at that voxel. -/
theorem c3_map_visible_eq_naive_witness :
    ((0 : Nat) < 6 ∧ (5 : Nat) < 32 ∧ (0 : Nat) < 32) ∧
    face_bit
      (map_visible
        (fun id => if id = ⟨0, ⟨0, 0, 0⟩⟩ then
          some fun x y z =>
            if x = 5 ∧ y = 0 ∧ z = 0 then VoxelType.Stone else VoxelType.Air
        else none)
        ⟨0, ⟨0, 0, 0⟩⟩) 0 5 0 0 =
    vis_ref
      (fun id => if id = ⟨0, ⟨0, 0, 0⟩⟩ then
        some fun x y z =>
          if x = 5 ∧ y = 0 ∧ z = 0 then VoxelType.Stone else VoxelType.Air
      else none)
      ⟨0, ⟨0, 0, 0⟩⟩ 0 5 0 0 :=
  ⟨⟨by decide, by decide, by decide⟩,
    c3_map_visible_eq_naive _ ⟨0, ⟨0, 0, 0⟩⟩ 0 5 0 0 (by decide) (by decide)
      (by decide) (by decide)⟩

/-! ### Mesh generation (`meshing.rs::generate_mesh`) -/

/-- Component-wise `i32` left shift (`IVec3 << n`); the positions reached
in the statements below stay far inside the `i32` range. -/
def IVec3.shl (v : IVec3) (n : Nat) : IVec3 :=
  ⟨v.x * 2 ^ n, v.y * 2 ^ n, v.z * 2 ^ n⟩

/-- The body of `generate_mesh`'s triple loop for one cell `(x,y,z)`:
skip Air; else emit one instance per face direction whose visibility bit
(`faces[d][..] & (FIRST_BIT >> k)`) is set, at position
`(chunk.pos << 5 + (x,y,z)) << chunk.lod`. -/
def gen_cell (c : ChunkID) (data : VoxelData) (faces : Nat → Nat → Nat → Nat)
    (m : Mesh) (x y z : Nat) : Mesh :=
  if data x y z = VoxelType.Air then m
  else
    let position := ((c.pos.shl 5).add ⟨(x : Int), (y : Int), (z : Int)⟩).shl c.lod
    let m := if faces 0 y z &&& (2 ^ 31 >>> x) ≠ 0 then
        m.add_nx position (texture_id (data x y z) 0) c.lod else m
    let m := if faces 1 y z &&& (2 ^ 31 >>> x) ≠ 0 then
        m.add_px position (texture_id (data x y z) 1) c.lod else m
    let m := if faces 2 z x &&& (2 ^ 31 >>> y) ≠ 0 then
        m.add_ny position (texture_id (data x y z) 2) c.lod else m
    let m := if faces 3 z x &&& (2 ^ 31 >>> y) ≠ 0 then
        m.add_py position (texture_id (data x y z) 3) c.lod else m
    let m := if faces 4 x y &&& (2 ^ 31 >>> z) ≠ 0 then
        m.add_nz position (texture_id (data x y z) 4) c.lod else m
    if faces 5 x y &&& (2 ^ 31 >>> z) ≠ 0 then
      m.add_pz position (texture_id (data x y z) 5) c.lod else m

/-- `generate_mesh` from `meshing.rs`. -/
def generate_mesh (c : ChunkID) (data : VoxelData)
    (faces : Nat → Nat → Nat → Nat) : Mesh :=
  (List.range 32).foldl (fun m x =>
    (List.range 32).foldl (fun m y =>
      (List.range 32).foldl (fun m z => gen_cell c data faces m x y z) m) m)
    Mesh.empty

/-- The C8 scenario's voxel data: all Air except one voxel `v` at local
`(5,0,0)`. -/
def c8_data (v : VoxelType) : VoxelData := fun x y z =>
  if x = 5 then (if y = 0 then (if z = 0 then v else .Air) else .Air) else .Air

/-- The C8 scenario's level: only the chunk `(lod 0, (0,0,0))`, holding
`c8_data v`; all six neighbors absent. -/
def c8_level (v : VoxelType) : MeshLevel := fun id =>
  if id = ⟨0, ⟨0, 0, 0⟩⟩ then some (c8_data v) else none

theorem foldl_fix (g : Mesh → Nat → Mesh) (l : List Nat)
    (h : ∀ m, ∀ x ∈ l, g m x = m) : ∀ a, l.foldl g a = a := by
  induction l with
  | nil => intro a; rfl
  | cons x rest ih =>
    intro a
    rw [List.foldl_cons, h a x (List.mem_cons_self _ _)]
    exact ih (fun m y hy => h m y (List.mem_cons_of_mem _ hy)) a

theorem gen_cell_air (c : ChunkID) (data : VoxelData)
    (faces : Nat → Nat → Nat → Nat) (m : Mesh) (x y z : Nat)
    (h : data x y z = VoxelType.Air) : gen_cell c data faces m x y z = m := by
  unfold gen_cell
  rw [if_pos h]

theorem c8_data_air (v : VoxelType) (x y z : Nat) (h : ¬(x = 5 ∧ y = 0 ∧ z = 0)) :
    c8_data v x y z = VoxelType.Air := by
  unfold c8_data
  by_cases hx : x = 5
  · by_cases hy : y = 0
    · by_cases hz : z = 0
      · exact absurd ⟨hx, hy, hz⟩ h
      · rw [if_pos hx, if_pos hy, if_neg hz]
    · rw [if_pos hx, if_neg hy]
  · rw [if_neg hx]

theorem foldl_range32_at0 (g : Mesh → Nat → Mesh)
    (h : ∀ m x, x ≠ 0 → g m x = m) (a : Mesh) :
    (List.range 32).foldl g a = g a 0 := by
  have hr : List.range 32 = 0 :: [1, 2, 3, 4, 5, 6, 7, 8, 9, 10, 11, 12, 13,
      14, 15, 16, 17, 18, 19, 20, 21, 22, 23, 24, 25, 26, 27, 28, 29, 30, 31] := by
    decide
  rw [hr, List.foldl_cons]
  apply foldl_fix
  intro m x hx
  apply h
  intro h0
  rw [h0] at hx
  exact absurd hx (by decide)

theorem foldl_range32_at5 (g : Mesh → Nat → Mesh)
    (h : ∀ m x, x ≠ 5 → g m x = m) (a : Mesh) :
    (List.range 32).foldl g a = g a 5 := by
  have hr : List.range 32 = [0, 1, 2, 3, 4] ++ 5 :: [6, 7, 8, 9, 10, 11, 12,
      13, 14, 15, 16, 17, 18, 19, 20, 21, 22, 23, 24, 25, 26, 27, 28, 29, 30,
      31] := by
    decide
  rw [hr, List.foldl_append]
  rw [foldl_fix g [0, 1, 2, 3, 4] (by
    intro m x hx
    apply h
    intro h5
    rw [h5] at hx
    exact absurd hx (by decide)) a]
  rw [List.foldl_cons]
  apply foldl_fix
  intro m x hx
  apply h
  intro h5
  rw [h5] at hx
  exact absurd hx (by decide)

/-- The `32³` loop of `generate_mesh` on the single-voxel grid collapses to
the one cell `(5,0,0)`: every all-Air cell leaves the mesh unchanged. -/
theorem c8_generate_mesh_reduce (c : ChunkID) (v : VoxelType)
    (faces : Nat → Nat → Nat → Nat) :
    generate_mesh c (c8_data v) faces =
      gen_cell c (c8_data v) faces Mesh.empty 5 0 0 := by
  have hcell : ∀ (m : Mesh) (x y z : Nat), ¬(x = 5 ∧ y = 0 ∧ z = 0) →
      gen_cell c (c8_data v) faces m x y z = m :=
    fun m x y z h => gen_cell_air _ _ _ _ _ _ _ (c8_data_air v x y z h)
  have hzfold : ∀ (x y : Nat) (m : Mesh), ¬(x = 5 ∧ y = 0) →
      (List.range 32).foldl (fun m z => gen_cell c (c8_data v) faces m x y z) m
        = m :=
    fun x y m hxy =>
      foldl_fix _ _ (fun m' z _ => hcell m' x y z fun h => hxy ⟨h.1, h.2.1⟩) m
  have hxfold : ∀ (x : Nat), x ≠ 5 → ∀ m : Mesh,
      (List.range 32).foldl (fun m y => (List.range 32).foldl
        (fun m z => gen_cell c (c8_data v) faces m x y z) m) m = m :=
    fun x hx m =>
      foldl_fix _ _ (fun m' y _ => hzfold x y m' fun h => hx h.1) m
  have h5 : generate_mesh c (c8_data v) faces =
      (List.range 32).foldl (fun m y => (List.range 32).foldl
        (fun m z => gen_cell c (c8_data v) faces m 5 y z) m) Mesh.empty :=
    foldl_range32_at5 _ (fun m x hx => hxfold x hx m) Mesh.empty
  have h50 : (List.range 32).foldl (fun m y => (List.range 32).foldl
        (fun m z => gen_cell c (c8_data v) faces m 5 y z) m) Mesh.empty =
      (List.range 32).foldl (fun m z => gen_cell c (c8_data v) faces m 5 0 z)
        Mesh.empty :=
    foldl_range32_at0 _ (fun m y hy => hzfold 5 y m fun h => hy h.2) Mesh.empty
  have h500 : (List.range 32).foldl
        (fun m z => gen_cell c (c8_data v) faces m 5 0 z) Mesh.empty =
      gen_cell c (c8_data v) faces Mesh.empty 5 0 0 :=
    foldl_range32_at0 _ (fun m z hz0 => hcell m 5 0 z fun h => hz0 h.2.2)
      Mesh.empty
  rw [h5, h50, h500]

/-- Claim C8: for a LOD-0 chunk at `(0,0,0)` whose data is all Air except
one solid voxel `v` at local `(5,0,0)`, with all six neighbors absent,
building the visibility masks and the mesh yields exactly one instance in
each of the six direction buckets, every instance at pos `(5,0,0)` with
kind `mk_kind 0 (texture_id v d)`, whose lower 16 bits are the voxel's
texture id. -/
theorem c8_single_voxel_mesh (v : VoxelType) (hv : v ≠ VoxelType.Air) :
    generate_mesh ⟨0, ⟨0, 0, 0⟩⟩ (c8_data v)
        (map_visible (c8_level v) ⟨0, ⟨0, 0, 0⟩⟩) =
      ⟨[⟨⟨5, 0, 0⟩, mk_kind 0 (texture_id v 0)⟩],
       [⟨⟨5, 0, 0⟩, mk_kind 0 (texture_id v 1)⟩],
       [⟨⟨5, 0, 0⟩, mk_kind 0 (texture_id v 2)⟩],
       [⟨⟨5, 0, 0⟩, mk_kind 0 (texture_id v 3)⟩],
       [⟨⟨5, 0, 0⟩, mk_kind 0 (texture_id v 4)⟩],
       [⟨⟨5, 0, 0⟩, mk_kind 0 (texture_id v 5)⟩]⟩ ∧
    ∀ d : Nat, mk_kind 0 (texture_id v d) % 2 ^ 16 = texture_id v d := by
  rw [c8_generate_mesh_reduce]
  cases v
  · exact absurd rfl hv
  · exact ⟨by decide, fun d => mk_kind_mod_two_pow_16 0 (texture_id _ d)
      (by unfold texture_id; exact Nat.mod_lt _ (by norm_num))⟩
  · exact ⟨by decide, fun d => mk_kind_mod_two_pow_16 0 (texture_id _ d)
      (by unfold texture_id; exact Nat.mod_lt _ (by norm_num))⟩
  · exact ⟨by decide, fun d => mk_kind_mod_two_pow_16 0 (texture_id _ d)
      (by unfold texture_id; exact Nat.mod_lt _ (by norm_num))⟩

/-- Witness for C8 at `v = Stone`. -/
theorem c8_single_voxel_mesh_witness :
    VoxelType.Stone ≠ VoxelType.Air ∧
    (generate_mesh ⟨0, ⟨0, 0, 0⟩⟩ (c8_data VoxelType.Stone)
        (map_visible (c8_level VoxelType.Stone) ⟨0, ⟨0, 0, 0⟩⟩) =
      ⟨[⟨⟨5, 0, 0⟩, mk_kind 0 (texture_id VoxelType.Stone 0)⟩],
       [⟨⟨5, 0, 0⟩, mk_kind 0 (texture_id VoxelType.Stone 1)⟩],
       [⟨⟨5, 0, 0⟩, mk_kind 0 (texture_id VoxelType.Stone 2)⟩],
       [⟨⟨5, 0, 0⟩, mk_kind 0 (texture_id VoxelType.Stone 3)⟩],
       [⟨⟨5, 0, 0⟩, mk_kind 0 (texture_id VoxelType.Stone 4)⟩],
       [⟨⟨5, 0, 0⟩, mk_kind 0 (texture_id VoxelType.Stone 5)⟩]⟩ ∧
      ∀ d : Nat, mk_kind 0 (texture_id VoxelType.Stone d) % 2 ^ 16 =
        texture_id VoxelType.Stone d) :=
  ⟨by decide, c8_single_voxel_mesh VoxelType.Stone (by decide)⟩
